import Mathlib

/-!
Shallow embedding of the ATS backend entity-table access layer
(src/api/database.py, applicants.py, clients.py, recruiters.py,
job_descriptions.py, applicant_job_apply.py).

Wire values are modelled by `Value` (JSON null / string / number, with
numbers as `Int`).  A wire row is an association list of column name to
value; the record store is a list of rows per table.  Fallible Python
code (KeyError, ValueError, TypeError) is modelled with `Except String`.
`datetime` values are carried as their ISO strings; `uuid.UUID` values
as their normalized 32-hex-digit lowercase string.
-/

inductive Value where
  | vnone
  | vstr (s : String)
  | vint (n : Int)
deriving DecidableEq, Repr

/-- Python truthiness of a wire value: None, "" and 0 are falsy. -/
def Value.truthy : Value → Bool
  | .vnone => false
  | .vstr s => !s.data.isEmpty
  | .vint n => n != 0

abbrev Row := List (String × Value)
abbrev Table := List Row

/-- First binding of a key in a row (Python dict lookup; dict keys are unique). -/
def rowLookup : Row → String → Option Value
  | [], _ => none
  | (k0, v0) :: rest, k => if k0 = k then some v0 else rowLookup rest k

/-- Python `data.get(k)`: missing key gives None. -/
def dictGet (r : Row) (k : String) : Value := (rowLookup r k).getD .vnone

/-- Python `data.get(k, d)`: default only when the key is missing. -/
def dictGetD (r : Row) (k : String) (d : Value) : Value := (rowLookup r k).getD d

/-- Python `data[k]`: KeyError when the key is missing. -/
def dictGetStrict (r : Row) (k : String) : Except String Value :=
  match rowLookup r k with
  | some v => .ok v
  | none => .error "KeyError"

/-- Python dict assignment `d[k] = v`: replace the binding or append it. -/
def setField : Row → String → Value → Row
  | [], k, v => [(k, v)]
  | (k0, v0) :: rest, k, v =>
    if k0 = k then (k, v) :: rest else (k0, v0) :: setField rest k v

/-- Apply a partial update dict to a row, one assignment per binding. -/
def applyUpdates (r : Row) (upd : Row) : Row :=
  upd.foldl (fun acc p => setField acc p.1 p.2) r

/-- Python `del d[k]` (on rows with unique keys). -/
def removeField (r : Row) (k : String) : Row := r.filter (fun p => p.1 ≠ k)

/-- Store equality predicate `.eq(column, value)` (database.py query_table):
a null filter value matches rows where the column is unset or null. -/
def matchesEq (r : Row) (k : String) (v : Value) : Bool :=
  match v with
  | .vnone => decide (dictGet r k = .vnone)
  | v => decide (rowLookup r k = some v)

def rowMatches (r : Row) (filters : Row) : Bool :=
  filters.all (fun p => matchesEq r p.1 p.2)

/-- database.py `query_table`: chain `.eq` filters; an absent or empty
filters dict applies no predicate. -/
def query_table (t : Table) (filters : Option Row) : List Row :=
  match filters with
  | none => t
  | some fs => if fs.isEmpty then t else t.filter (fun r => rowMatches r fs)

/-- database.py `update_record`: update every row whose id column equals
`id`, returning the updated rows and the new table state. -/
def update_record (t : Table) (id : Value) (data : Row) : List Row × Table :=
  ((t.filter (fun r => matchesEq r "id" id)).map (fun r => applyUpdates r data),
   t.map (fun r => if matchesEq r "id" id then applyUpdates r data else r))

/- String helpers on character lists (Python str operations). -/

def startsWithChars : List Char → List Char → Bool
  | [], _ => true
  | _ :: _, [] => false
  | a :: as, b :: bs => a == b && startsWithChars as bs

/-- Python `needle in hay` substring test. -/
def containsChars (needle : List Char) : List Char → Bool
  | [] => needle.isEmpty
  | c :: cs => startsWithChars needle (c :: cs) || containsChars needle cs

def containsStr (hay needle : String) : Bool := containsChars needle.data hay.data

/-- Python `s.replace(pat, "")`: remove every occurrence, left to
right.  Structural recursion on a fuel argument (each step consumes at
least one character, so `l.length` fuel always suffices). -/
def removeAllSubFuel (pat : List Char) : Nat → List Char → List Char
  | _, [] => []
  | 0, l => l
  | fuel + 1, c :: cs =>
    if !pat.isEmpty && startsWithChars pat (c :: cs) then
      removeAllSubFuel pat fuel (cs.drop (pat.length - 1))
    else
      c :: removeAllSubFuel pat fuel cs

def removeAllSub (pat l : List Char) : List Char := removeAllSubFuel pat l.length l

def isBraceChar (c : Char) : Bool := c == '{' || c == '}'

/-- Python `s.strip(braces)`: drop those characters from both ends. -/
def stripBraces (cs : List Char) : List Char :=
  ((cs.dropWhile isBraceChar).reverse.dropWhile isBraceChar).reverse

def isHexDigitChar (c : Char) : Bool :=
  c.isDigit || ('a' ≤ c && c ≤ 'f') || ('A' ≤ c && c ≤ 'F')

def strLower (s : String) : String := String.mk (s.data.map Char.toLower)

/-- Model of `uuid.UUID(s)` string acceptance: drop `urn:` and `uuid:`,
strip braces, drop hyphens; accept exactly 32 hex digits.  The value is
kept as the normalized lowercase 32-digit hex string. -/
def uuidNormalize (s : String) : Option String :=
  let cs1 := removeAllSub "urn:".data s.data
  let cs2 := removeAllSub "uuid:".data cs1
  let cs3 := stripBraces cs2
  let cs4 := removeAllSub ['-'] cs3
  if cs4.length == 32 && cs4.all isHexDigitChar then
    some (String.mk (cs4.map Char.toLower))
  else none

/-- Model of `str(uuid)`: canonical lowercase 8-4-4-4-12 form. -/
def uuidCanonical (u : String) : String :=
  let cs := u.data
  String.mk (cs.take 8 ++ '-' :: ((cs.drop 8).take 4) ++ '-' :: ((cs.drop 12).take 4)
    ++ '-' :: ((cs.drop 16).take 4) ++ '-' :: cs.drop 20)

def digitAt (cs : List Char) (i : Nat) : Bool :=
  match cs.get? i with
  | some c => c.isDigit
  | none => false

def charAt (cs : List Char) (i : Nat) (c : Char) : Bool := cs.get? i == some c

/-- Model of `datetime.fromisoformat` acceptance:
`YYYY-MM-DDTHH:MM:SS` with an optional fractional-second suffix. -/
def isValidISO (s : String) : Bool :=
  let cs := s.data
  (cs.length == 19 ||
    (decide (21 ≤ cs.length) && decide (cs.length ≤ 26) && charAt cs 19 '.' &&
      (cs.drop 20).all Char.isDigit))
  && digitAt cs 0 && digitAt cs 1 && digitAt cs 2 && digitAt cs 3 && charAt cs 4 '-'
  && digitAt cs 5 && digitAt cs 6 && charAt cs 7 '-' && digitAt cs 8 && digitAt cs 9
  && charAt cs 10 'T' && digitAt cs 11 && digitAt cs 12 && charAt cs 13 ':'
  && digitAt cs 14 && digitAt cs 15 && charAt cs 16 ':' && digitAt cs 17 && digitAt cs 18

/-- `uuid.UUID(data[k]) if data.get(k) else None` (codec id parsing). -/
def parseOptUUID (v : Value) : Except String (Option String) :=
  if v.truthy then
    match v with
    | .vstr s =>
      match uuidNormalize s with
      | some u => .ok (some u)
      | none => .error "ValueError: badly formed hexadecimal UUID string"
    | _ => .error "TypeError: unsupported uuid value"
  else .ok none

/-- `datetime.fromisoformat(data[k]) if data.get(k) else None`. -/
def parseOptTimestamp (v : Value) : Except String (Option String) :=
  if v.truthy then
    match v with
    | .vstr s => if isValidISO s then .ok (some s) else .error "ValueError: invalid isoformat string"
    | _ => .error "TypeError: fromisoformat argument must be a string"
  else .ok none

/-- Python `.lower()` on a wire value: AttributeError unless a string. -/
def pyLowerE : Value → Except String String
  | .vstr s => .ok (strLower s)
  | _ => .error "AttributeError: lower"

/-- Effectful list map (list comprehension propagating exceptions). -/
def mapE {α β : Type} (f : α → Except String β) : List α → Except String (List β)
  | [] => .ok []
  | x :: xs =>
    match f x with
    | .error e => .error e
    | .ok y =>
      match mapE f xs with
      | .error e => .error e
      | .ok ys => .ok (y :: ys)

/-- Effectful list filter (list comprehension propagating exceptions). -/
def filterE {α : Type} (p : α → Except String Bool) : List α → Except String (List α)
  | [] => .ok []
  | x :: xs =>
    match p x with
    | .error e => .error e
    | .ok b =>
      match filterE p xs with
      | .error e => .error e
      | .ok ys => .ok (if b then x :: ys else ys)

/-- Python reassignment pattern `if flag: xs = [x for x in xs if p(x)]`. -/
def filterIf {α : Type} (b : Bool) (p : α → Except String Bool) (l : List α) :
    Except String (List α) :=
  if b then filterE p l else .ok l

/-- Truthiness of an optional string parameter (`if param:`). -/
def optParamTruthy : Option String → Bool
  | none => false
  | some s => !s.data.isEmpty

def optStr (o : Option String) : String := o.getD ""

/- ----------------------------------------------------------------- -/
/- Applicant (src/api/applicants.py)                                  -/
/- ----------------------------------------------------------------- -/

structure Applicant where
  name : Value
  last_name : Value
  linkedin : Value
  email : Value
  phone : Value
  city : Value
  english : Value
  id : Option String
  created_at : Option String
  deactive_at : Option String
deriving DecidableEq, Repr

/-- Applicant.to_dict: required fields always; `id` only when set. -/
def Applicant.to_dict (a : Applicant) : Row :=
  [("name", a.name), ("last_name", a.last_name), ("linkedin", a.linkedin),
   ("email", a.email), ("phone", a.phone), ("city", a.city), ("english", a.english)]
  ++ (match a.id with
      | some u => [("id", .vstr (uuidCanonical u))]
      | none => [])

/-- Applicant.from_dict: strict on the seven required fields, optional
id/created_at/deactive_at parsed when truthy. -/
def Applicant.from_dict (data : Row) : Except String Applicant :=
  match parseOptUUID (dictGet data "id") with
  | .error e => .error e
  | .ok idv =>
  match dictGetStrict data "name" with
  | .error e => .error e
  | .ok namev =>
  match dictGetStrict data "last_name" with
  | .error e => .error e
  | .ok lastv =>
  match dictGetStrict data "linkedin" with
  | .error e => .error e
  | .ok linkv =>
  match dictGetStrict data "email" with
  | .error e => .error e
  | .ok emailv =>
  match dictGetStrict data "phone" with
  | .error e => .error e
  | .ok phonev =>
  match dictGetStrict data "city" with
  | .error e => .error e
  | .ok cityv =>
  match dictGetStrict data "english" with
  | .error e => .error e
  | .ok engv =>
  match parseOptTimestamp (dictGet data "created_at") with
  | .error e => .error e
  | .ok cav =>
  match parseOptTimestamp (dictGet data "deactive_at") with
  | .error e => .error e
  | .ok dav =>
    .ok { name := namev, last_name := lastv, linkedin := linkv, email := emailv,
          phone := phonev, city := cityv, english := engv,
          id := idv, created_at := cav, deactive_at := dav }

/-- Residual name predicate of search_applicants
(`name_lower in a.name.lower() or name_lower in a.last_name.lower()`). -/
def applicantNamePred (nameLower : String) (a : Applicant) : Except String Bool :=
  match pyLowerE a.name with
  | .error e => .error e
  | .ok n =>
    if containsStr n nameLower then .ok true
    else
      match pyLowerE a.last_name with
      | .error e => .error e
      | .ok l => .ok (containsStr l nameLower)

/-- Residual city predicate of search_applicants. -/
def applicantCityPred (cityLower : String) (a : Applicant) : Except String Bool :=
  match pyLowerE a.city with
  | .error e => .error e
  | .ok c => .ok (containsStr c cityLower)

/-- search_applicants: exact-match filters (email, english) go to the
store; when the filter dict is empty the active-only predicate is used
instead; name and city are residual in-process substring filters. -/
def search_applicants (t : Table)
    (name city english_level email : Option String) : Except String (List Applicant) :=
  let filters : Row :=
    (if optParamTruthy email then [("email", .vstr (optStr email))] else [])
    ++ (if optParamTruthy english_level then [("english", .vstr (optStr english_level))] else [])
  let data := query_table t (some (if filters.isEmpty then [("deactive_at", .vnone)] else filters))
  match mapE Applicant.from_dict data with
  | .error e => .error e
  | .ok applicants =>
    match filterIf (optParamTruthy name)
        (applicantNamePred (strLower (optStr name))) applicants with
    | .error e => .error e
    | .ok applicants2 =>
      filterIf (optParamTruthy city) (applicantCityPred (strLower (optStr city))) applicants2

/-- create_applicant: insert `to_dict`, decode the first returned row,
raise when the store returns no row.  The store response is the
function argument (the store computes generated columns). -/
def create_applicant (store : Row → List Row) (a : Applicant) : Except String Applicant :=
  match store a.to_dict with
  | r :: _ => Applicant.from_dict r
  | [] => .error "Failed to create applicant"

/-- update_applicant: update-by-id, decode the first returned row,
None when no row matched. -/
def update_applicant (t : Table) (applicant_id : String) (updates : Row) :
    Except String (Option Applicant) × Table :=
  let res := update_record t (.vstr applicant_id) updates
  (match res.1 with
   | [] => .ok none
   | r :: _ => (Applicant.from_dict r).map some,
   res.2)

/-- deactivate_applicant: soft delete, set deactive_at to now. -/
def deactivate_applicant (t : Table) (applicant_id : String) (now : String) :
    Except String (Option Applicant) × Table :=
  update_applicant t applicant_id [("deactive_at", .vstr now)]

/-- reactivate_applicant: clear deactive_at. -/
def reactivate_applicant (t : Table) (applicant_id : String) :
    Except String (Option Applicant) × Table :=
  update_applicant t applicant_id [("deactive_at", .vnone)]

/- ----------------------------------------------------------------- -/
/- Client (src/api/clients.py)                                        -/
/- ----------------------------------------------------------------- -/

structure Client where
  description : Value
  id : Option String
  created_at : Option String
  deactive : Option String
deriving DecidableEq, Repr

/-- Client.to_dict: description when not None, id when set. -/
def Client.to_dict (c : Client) : Row :=
  (if c.description ≠ .vnone then [("description", c.description)] else [])
  ++ (match c.id with
      | some u => [("id", .vstr (uuidCanonical u))]
      | none => [])

/-- Client.from_dict (note the soft-delete column is `deactive`). -/
def Client.from_dict (data : Row) : Except String Client :=
  match parseOptUUID (dictGet data "id") with
  | .error e => .error e
  | .ok idv =>
  match parseOptTimestamp (dictGet data "created_at") with
  | .error e => .error e
  | .ok cav =>
  match parseOptTimestamp (dictGet data "deactive") with
  | .error e => .error e
  | .ok dav =>
    .ok { description := dictGet data "description",
          id := idv, created_at := cav, deactive := dav }

/-- Residual description predicate of search_clients
(`c.description and desc_lower in c.description.lower()`). -/
def clientDescPred (descLower : String) (c : Client) : Except String Bool :=
  if c.description.truthy then
    match pyLowerE c.description with
    | .error e => .error e
    | .ok s => .ok (containsStr s descLower)
  else .ok false

/-- search_clients: fetch the active set, then residual substring filter. -/
def search_clients (t : Table) (description : Option String) : Except String (List Client) :=
  let data := query_table t (some [("deactive", .vnone)])
  match mapE Client.from_dict data with
  | .error e => .error e
  | .ok clients =>
    filterIf (optParamTruthy description)
      (clientDescPred (strLower (optStr description))) clients

/-- Insert payload of create_client: `to_dict` with a caller-set id
removed so the store assigns the identifier. -/
def clientInsertPayload (c : Client) : Row :=
  let data := c.to_dict
  if (rowLookup data "id").isSome then removeField data "id" else data

/-- create_client: insert the id-stripped payload, decode the first
returned row, raise when the store returns no row. -/
def create_client (store : Row → List Row) (c : Client) : Except String Client :=
  match store (clientInsertPayload c) with
  | r :: _ => Client.from_dict r
  | [] => .error "Failed to create client"

/- ----------------------------------------------------------------- -/
/- Recruiter (src/api/recruiters.py)                                  -/
/- ----------------------------------------------------------------- -/

/-- The per-instance polymorphic recruiter identifier after from_dict:
None, a parsed opaque unique id, or the raw incoming value. -/
inductive RecId where
  | rnone
  | ruuid (u : String)
  | raw (v : Value)
deriving DecidableEq, Repr

structure Recruiter where
  name : Value
  description : Value
  id : RecId
  created_at : Option String
  deactive_at : Option String
deriving DecidableEq, Repr

/-- Recruiter.to_dict: name always, description when not None; never id. -/
def Recruiter.to_dict (r : Recruiter) : Row :=
  [("name", r.name)]
  ++ (if r.description ≠ .vnone then [("description", r.description)] else [])

/-- Identifier resolution of Recruiter.from_dict: a string that parses
as a valid opaque unique id becomes that parsed id; any other non-null
value is kept unchanged; never fails. -/
def resolveRecruiterId : Value → RecId
  | .vnone => .rnone
  | .vstr s =>
    match uuidNormalize s with
    | some u => .ruuid u
    | none => .raw (.vstr s)
  | v => .raw v

def Recruiter.from_dict (data : Row) : Except String Recruiter :=
  let idv := resolveRecruiterId (dictGet data "id")
  match dictGetStrict data "name" with
  | .error e => .error e
  | .ok namev =>
  match parseOptTimestamp (dictGet data "created_at") with
  | .error e => .error e
  | .ok cav =>
  match parseOptTimestamp (dictGet data "deactive_at") with
  | .error e => .error e
  | .ok dav =>
    .ok { name := namev, description := dictGet data "description",
          id := idv, created_at := cav, deactive_at := dav }

/-- Residual name predicate of search_recruiters. -/
def recruiterNamePred (nameLower : String) (r : Recruiter) : Except String Bool :=
  match pyLowerE r.name with
  | .error e => .error e
  | .ok n => .ok (containsStr n nameLower)

/-- Residual description predicate of search_recruiters
(`r.description and desc_lower in r.description.lower()`). -/
def recruiterDescPred (descLower : String) (r : Recruiter) : Except String Bool :=
  if r.description.truthy then
    match pyLowerE r.description with
    | .error e => .error e
    | .ok s => .ok (containsStr s descLower)
  else .ok false

/-- search_recruiters: fetch the active set, then residual filters. -/
def search_recruiters (t : Table) (name description : Option String) :
    Except String (List Recruiter) :=
  let data := query_table t (some [("deactive_at", .vnone)])
  match mapE Recruiter.from_dict data with
  | .error e => .error e
  | .ok recruiters =>
    match filterIf (optParamTruthy name)
        (recruiterNamePred (strLower (optStr name))) recruiters with
    | .error e => .error e
    | .ok recruiters2 =>
      filterIf (optParamTruthy description)
        (recruiterDescPred (strLower (optStr description))) recruiters2

/- ----------------------------------------------------------------- -/
/- JobDescription (src/api/job_descriptions.py)                       -/
/- ----------------------------------------------------------------- -/

structure JobDescription where
  min_salary : Value
  status : Value
  description : Value
  max_salary : Value
  recruiter_id : Value
  client_id : Option String
  id : Option String
  created_at : Option String
  deactive_at : Option String
deriving DecidableEq, Repr

/-- JobDescription.to_dict: min_salary and status always; description,
max_salary, recruiter_id, client_id only when not None. -/
def JobDescription.to_dict (j : JobDescription) : Row :=
  [("min_salary", j.min_salary), ("status", j.status)]
  ++ (if j.description ≠ .vnone then [("description", j.description)] else [])
  ++ (if j.max_salary ≠ .vnone then [("max_salary", j.max_salary)] else [])
  ++ (if j.recruiter_id ≠ .vnone then [("recruiter_id", j.recruiter_id)] else [])
  ++ (match j.client_id with
      | some u => [("client_id", .vstr (uuidCanonical u))]
      | none => [])

/-- JobDescription.from_dict: min_salary defaults to 0, status to OPEN
when the keys are missing; optional columns pass through. -/
def JobDescription.from_dict (data : Row) : Except String JobDescription :=
  match parseOptUUID (dictGet data "id") with
  | .error e => .error e
  | .ok idv =>
  match parseOptUUID (dictGet data "client_id") with
  | .error e => .error e
  | .ok clientv =>
  match parseOptTimestamp (dictGet data "created_at") with
  | .error e => .error e
  | .ok cav =>
  match parseOptTimestamp (dictGet data "deactive_at") with
  | .error e => .error e
  | .ok dav =>
    .ok { min_salary := dictGetD data "min_salary" (.vint 0),
          status := dictGetD data "status" (.vstr "OPEN"),
          description := dictGet data "description",
          max_salary := dictGet data "max_salary",
          recruiter_id := dictGet data "recruiter_id",
          client_id := clientv, id := idv, created_at := cav, deactive_at := dav }

/-- Python `j.min_salary >= bound` (TypeError on non-numeric values). -/
def salaryGE (v : Value) (bound : Int) : Except String Bool :=
  match v with
  | .vint n => .ok (decide (bound ≤ n))
  | _ => .error "TypeError: not comparable"

/-- Python `j.min_salary <= bound` (TypeError on non-numeric values). -/
def salaryLE (v : Value) (bound : Int) : Except String Bool :=
  match v with
  | .vint n => .ok (decide (n ≤ bound))
  | _ => .error "TypeError: not comparable"

/-- Residual filter `jobs = [j for j in jobs if j.min_salary >= m]`
applied when the bound is not None. -/
def salaryMinFilter (mn : Option Int) (jobs : List JobDescription) :
    Except String (List JobDescription) :=
  match mn with
  | some m => filterE (fun (j : JobDescription) => salaryGE j.min_salary m) jobs
  | none => .ok jobs

/-- Residual filter `jobs = [j for j in jobs if j.min_salary <= m]`
applied when the bound is not None. -/
def salaryMaxFilter (mx : Option Int) (jobs : List JobDescription) :
    Except String (List JobDescription) :=
  match mx with
  | some m => filterE (fun (j : JobDescription) => salaryLE j.min_salary m) jobs
  | none => .ok jobs

/-- search_job_descriptions: exact filters (status, client_id,
recruiter_id) go to the store, always together with the active-only
predicate; salary bounds are residual in-process filters. -/
def search_job_descriptions (t : Table) (status client_id : Option String)
    (recruiter_id : Option Int) (min_salary_min min_salary_max : Option Int) :
    Except String (List JobDescription) :=
  let filters : Row :=
    (if optParamTruthy status then [("status", .vstr (optStr status))] else [])
    ++ (if optParamTruthy client_id then [("client_id", .vstr (optStr client_id))] else [])
    ++ (match recruiter_id with
        | some n => [("recruiter_id", .vint n)]
        | none => [])
  let data :=
    if !filters.isEmpty then query_table t (some (filters ++ [("deactive_at", .vnone)]))
    else query_table t (some [("deactive_at", .vnone)])
  match mapE JobDescription.from_dict data with
  | .error e => .error e
  | .ok jobs =>
    match salaryMinFilter min_salary_min jobs with
    | .error e => .error e
    | .ok jobs2 => salaryMaxFilter min_salary_max jobs2

/-- update_job_description: update-by-id, decode the first returned
row, None when no row matched. -/
def update_job_description (t : Table) (job_id : String) (updates : Row) :
    Except String (Option JobDescription) × Table :=
  let res := update_record t (.vstr job_id) updates
  (match res.1 with
   | [] => .ok none
   | r :: _ => (JobDescription.from_dict r).map some,
   res.2)

/-- close_job_description: set deactive_at to now and status to CLOSED. -/
def close_job_description (t : Table) (job_id : String) (now : String) :
    Except String (Option JobDescription) × Table :=
  update_job_description t job_id [("deactive_at", .vstr now), ("status", .vstr "CLOSED")]

/-- reopen_job_description: clear deactive_at and set status to OPEN. -/
def reopen_job_description (t : Table) (job_id : String) :
    Except String (Option JobDescription) × Table :=
  update_job_description t job_id [("deactive_at", .vnone), ("status", .vstr "OPEN")]

/-- change_job_status: update the status field alone. -/
def change_job_status (t : Table) (job_id : String) (status : String) :
    Except String (Option JobDescription) × Table :=
  update_job_description t job_id [("status", .vstr status)]

/- ----------------------------------------------------------------- -/
/- ApplicantJobApply (src/api/applicant_job_apply.py)                 -/
/- ----------------------------------------------------------------- -/

structure ApplicantJobApply where
  applicant_id : Option String
  job_description_id : Option String
  id : Value
  created_at : Option String
  deactive_at : Option String
  recruiter_id : Option String
deriving DecidableEq, Repr

def ApplicantJobApply.from_dict (data : Row) : Except String ApplicantJobApply :=
  match parseOptUUID (dictGet data "applicant_id") with
  | .error e => .error e
  | .ok appv =>
  match parseOptUUID (dictGet data "job_description_id") with
  | .error e => .error e
  | .ok jobv =>
  match parseOptUUID (dictGet data "recruiter_id") with
  | .error e => .error e
  | .ok recv =>
  match parseOptTimestamp (dictGet data "created_at") with
  | .error e => .error e
  | .ok cav =>
  match parseOptTimestamp (dictGet data "deactive_at") with
  | .error e => .error e
  | .ok dav =>
    .ok { applicant_id := appv, job_description_id := jobv,
          id := dictGet data "id", created_at := cav, deactive_at := dav,
          recruiter_id := recv }

/-- search_applications: exact filters, and the active-only predicate is
always added (`if "deactive_at" not in filters`, never already there). -/
def search_applications (t : Table)
    (applicant_id job_description_id recruiter_id : Option String) :
    Except String (List ApplicantJobApply) :=
  let filters : Row :=
    (if optParamTruthy applicant_id then [("applicant_id", .vstr (optStr applicant_id))] else [])
    ++ (if optParamTruthy job_description_id then
          [("job_description_id", .vstr (optStr job_description_id))] else [])
    ++ (if optParamTruthy recruiter_id then [("recruiter_id", .vstr (optStr recruiter_id))] else [])
  let filters2 := if (rowLookup filters "deactive_at").isNone
                  then filters ++ [("deactive_at", .vnone)] else filters
  let data := query_table t (some filters2)
  mapE ApplicantJobApply.from_dict data

/- ----------------------------------------------------------------- -/
/- Helper lemmas                                                      -/
/- ----------------------------------------------------------------- -/

theorem rowLookup_setField_self (r : Row) (k : String) (v : Value) :
    rowLookup (setField r k v) k = some v := by
  induction r with
  | nil => simp [setField, rowLookup]
  | cons p rest ih =>
    obtain ⟨k0, v0⟩ := p
    by_cases h : k0 = k
    · simp [setField, h, rowLookup]
    · simp [setField, h, rowLookup, ih]

theorem rowLookup_setField_ne (r : Row) (k k' : String) (v : Value) (h : k' ≠ k) :
    rowLookup (setField r k v) k' = rowLookup r k' := by
  induction r with
  | nil =>
    have h2 : ¬k = k' := fun he => h he.symm
    simp [setField, rowLookup, h2]
  | cons p rest ih =>
    obtain ⟨k0, v0⟩ := p
    by_cases h0 : k0 = k
    · subst h0
      have h2 : ¬k0 = k' := fun he => h he.symm
      simp [setField, rowLookup, h2]
    · simp only [setField, if_neg h0, rowLookup]
      by_cases h1 : k0 = k'
      · simp [h1]
      · simp [h1, ih]

theorem dictGet_setField_self (r : Row) (k : String) (v : Value) :
    dictGet (setField r k v) k = v := by
  simp [dictGet, rowLookup_setField_self]

theorem applyUpdates_one (r : Row) (k : String) (v : Value) :
    applyUpdates r [(k, v)] = setField r k v := rfl

theorem applyUpdates_two (r : Row) (k1 k2 : String) (v1 v2 : Value) :
    applyUpdates r [(k1, v1), (k2, v2)] = setField (setField r k1 v1) k2 v2 := rfl

theorem mapE_ok_mem {α β : Type} (f : α → Except String β) :
    ∀ (l : List α) (l' : List β), mapE f l = .ok l' → ∀ b ∈ l', ∃ a ∈ l, f a = .ok b := by
  intro l
  induction l with
  | nil =>
    intro l' h b hb
    simp only [mapE] at h
    cases h
    simp at hb
  | cons x xs ih =>
    intro l' h b hb
    simp only [mapE] at h
    split at h
    · cases h
    next y heq =>
      split at h
      · cases h
      next ys heq2 =>
        cases h
        rcases List.mem_cons.mp hb with hb | hb
        · exact ⟨x, List.mem_cons_self x xs, hb ▸ heq⟩
        · obtain ⟨a, ha, hfa⟩ := ih ys heq2 b hb
          exact ⟨a, List.mem_cons_of_mem x ha, hfa⟩

theorem filterE_ok_mem {α : Type} (p : α → Except String Bool) :
    ∀ (l res : List α), filterE p l = .ok res → ∀ x ∈ res, x ∈ l ∧ p x = .ok true := by
  intro l
  induction l with
  | nil =>
    intro res h x hx
    simp only [filterE] at h
    cases h
    simp at hx
  | cons y ys ih =>
    intro res h x hx
    simp only [filterE] at h
    split at h
    · cases h
    next b heq =>
      split at h
      · cases h
      next zs heq2 =>
        cases h
        by_cases hb : b = true
        · subst hb
          simp only [if_pos rfl] at hx
          rcases List.mem_cons.mp hx with hx | hx
          · subst hx
            exact ⟨List.mem_cons_self _ _, heq⟩
          · obtain ⟨hmem, hp⟩ := ih zs heq2 x hx
            exact ⟨List.mem_cons_of_mem y hmem, hp⟩
        · rw [Bool.not_eq_true] at hb
          subst hb
          simp only [Bool.false_eq_true, if_neg] at hx
          obtain ⟨hmem, hp⟩ := ih zs heq2 x hx
          exact ⟨List.mem_cons_of_mem y hmem, hp⟩

theorem mem_query_table_some {t : Table} {fs : Row} {r : Row}
    (h : r ∈ query_table t (some fs)) (hne : fs.isEmpty = false) :
    rowMatches r fs = true ∧ r ∈ t := by
  simp only [query_table, hne, Bool.false_eq_true, if_neg, not_false_iff] at h
  exact ⟨(List.mem_filter.mp h).2, (List.mem_filter.mp h).1⟩

theorem rowMatches_mem {r : Row} {fs : Row} (h : rowMatches r fs = true)
    {k : String} {v : Value} (hmem : (k, v) ∈ fs) : matchesEq r k v = true := by
  exact List.all_eq_true.mp h (k, v) hmem

theorem matchesEq_vnone {r : Row} {k : String} (h : matchesEq r k .vnone = true) :
    dictGet r k = .vnone := by
  simpa [matchesEq] using h

theorem dictGetStrict_ok {r : Row} {k : String} {v : Value}
    (h : dictGetStrict r k = .ok v) : rowLookup r k = some v := by
  unfold dictGetStrict at h
  split at h
  · cases h; assumption
  · cases h

theorem isValidISO_nonempty {s : String} (h : isValidISO s = true) :
    s.data.isEmpty = false := by
  obtain ⟨l⟩ := s
  cases l with
  | nil => simp [isValidISO, digitAt, charAt] at h
  | cons c cs => rfl

theorem truthy_vstr_of_validISO {s : String} (h : isValidISO s = true) :
    Value.truthy (.vstr s) = true := by
  simp [Value.truthy, isValidISO_nonempty h]

theorem parseOptTimestamp_vnone : parseOptTimestamp .vnone = .ok none := rfl

theorem parseOptTimestamp_valid {s : String} (h : isValidISO s = true) :
    parseOptTimestamp (.vstr s) = .ok (some s) := by
  unfold parseOptTimestamp
  rw [truthy_vstr_of_validISO h]
  simp [h]

theorem parseOptUUID_vnone : parseOptUUID .vnone = .ok none := rfl

theorem parseOptUUID_ok_some {v : Value} {u : String}
    (h : parseOptUUID v = .ok (some u)) :
    ∃ s, v = .vstr s ∧ uuidNormalize s = some u := by
  cases v with
  | vnone => simp [parseOptUUID, Value.truthy] at h
  | vint n =>
    simp only [parseOptUUID] at h
    split at h
    · cases h
    · cases h
  | vstr s =>
    simp only [parseOptUUID] at h
    split at h
    · split at h
      next u2 heq =>
        cases h
        exact ⟨s, rfl, heq⟩
      · cases h
    · cases h

theorem parseOptUUID_error_head {v : Value} {m : String}
    (h : parseOptUUID v = .error m) : m.data.head? ≠ some 'F' := by
  cases v with
  | vnone => simp [parseOptUUID, Value.truthy] at h
  | vint n =>
    simp only [parseOptUUID] at h
    split at h
    · cases h; decide
    · cases h
  | vstr s =>
    simp only [parseOptUUID] at h
    split at h
    · split at h
      · cases h
      · cases h; decide
    · cases h

theorem parseOptTimestamp_error_head {v : Value} {m : String}
    (h : parseOptTimestamp v = .error m) : m.data.head? ≠ some 'F' := by
  cases v with
  | vnone => simp [parseOptTimestamp, Value.truthy] at h
  | vint n =>
    simp only [parseOptTimestamp] at h
    split at h
    · cases h; decide
    · cases h
  | vstr s =>
    simp only [parseOptTimestamp] at h
    split at h
    · split at h
      · cases h
      · cases h; decide
    · cases h

theorem dictGetStrict_error_head {r : Row} {k m : String}
    (h : dictGetStrict r k = .error m) : m.data.head? ≠ some 'F' := by
  unfold dictGetStrict at h
  split at h
  · cases h
  · cases h; decide

theorem applicant_from_dict_ok_inv {data : Row} {a : Applicant}
    (h : Applicant.from_dict data = .ok a) :
    parseOptUUID (dictGet data "id") = .ok a.id ∧
    rowLookup data "name" = some a.name ∧
    rowLookup data "last_name" = some a.last_name ∧
    rowLookup data "linkedin" = some a.linkedin ∧
    rowLookup data "email" = some a.email ∧
    rowLookup data "phone" = some a.phone ∧
    rowLookup data "city" = some a.city ∧
    rowLookup data "english" = some a.english ∧
    parseOptTimestamp (dictGet data "created_at") = .ok a.created_at ∧
    parseOptTimestamp (dictGet data "deactive_at") = .ok a.deactive_at := by
  unfold Applicant.from_dict at h
  split at h
  · cases h
  next idv heq1 =>
    split at h
    · cases h
    next namev heq2 =>
      split at h
      · cases h
      next lastv heq3 =>
        split at h
        · cases h
        next linkv heq4 =>
          split at h
          · cases h
          next emailv heq5 =>
            split at h
            · cases h
            next phonev heq6 =>
              split at h
              · cases h
              next cityv heq7 =>
                split at h
                · cases h
                next engv heq8 =>
                  split at h
                  · cases h
                  next cav heq9 =>
                    split at h
                    · cases h
                    next dav heq10 =>
                      cases h
                      exact ⟨heq1, dictGetStrict_ok heq2, dictGetStrict_ok heq3, dictGetStrict_ok heq4, dictGetStrict_ok heq5, dictGetStrict_ok heq6, dictGetStrict_ok heq7, dictGetStrict_ok heq8, heq9, heq10⟩

theorem client_from_dict_ok_inv {data : Row} {a : Client}
    (h : Client.from_dict data = .ok a) :
    parseOptUUID (dictGet data "id") = .ok a.id ∧
    a.description = dictGet data "description" ∧
    parseOptTimestamp (dictGet data "created_at") = .ok a.created_at ∧
    parseOptTimestamp (dictGet data "deactive") = .ok a.deactive := by
  unfold Client.from_dict at h
  split at h
  · cases h
  next idv heq1 =>
    split at h
    · cases h
    next cav heq2 =>
      split at h
      · cases h
      next dav heq3 =>
        cases h
        exact ⟨heq1, rfl, heq2, heq3⟩

theorem recruiter_from_dict_ok_inv {data : Row} {a : Recruiter}
    (h : Recruiter.from_dict data = .ok a) :
    a.id = resolveRecruiterId (dictGet data "id") ∧
    rowLookup data "name" = some a.name ∧
    a.description = dictGet data "description" ∧
    parseOptTimestamp (dictGet data "created_at") = .ok a.created_at ∧
    parseOptTimestamp (dictGet data "deactive_at") = .ok a.deactive_at := by
  unfold Recruiter.from_dict at h
  split at h
  · cases h
  next namev heq1 =>
    split at h
    · cases h
    next cav heq2 =>
      split at h
      · cases h
      next dav heq3 =>
        cases h
        exact ⟨rfl, dictGetStrict_ok heq1, rfl, heq2, heq3⟩

theorem jd_from_dict_ok_inv {data : Row} {a : JobDescription}
    (h : JobDescription.from_dict data = .ok a) :
    parseOptUUID (dictGet data "id") = .ok a.id ∧
    parseOptUUID (dictGet data "client_id") = .ok a.client_id ∧
    a.min_salary = dictGetD data "min_salary" (.vint 0) ∧
    a.status = dictGetD data "status" (.vstr "OPEN") ∧
    a.description = dictGet data "description" ∧
    a.max_salary = dictGet data "max_salary" ∧
    a.recruiter_id = dictGet data "recruiter_id" ∧
    parseOptTimestamp (dictGet data "created_at") = .ok a.created_at ∧
    parseOptTimestamp (dictGet data "deactive_at") = .ok a.deactive_at := by
  unfold JobDescription.from_dict at h
  split at h
  · cases h
  next idv heq1 =>
    split at h
    · cases h
    next clientv heq2 =>
      split at h
      · cases h
      next cav heq3 =>
        split at h
        · cases h
        next dav heq4 =>
          cases h
          exact ⟨heq1, heq2, rfl, rfl, rfl, rfl, rfl, heq3, heq4⟩

theorem apply_from_dict_ok_inv {data : Row} {a : ApplicantJobApply}
    (h : ApplicantJobApply.from_dict data = .ok a) :
    parseOptUUID (dictGet data "applicant_id") = .ok a.applicant_id ∧
    parseOptUUID (dictGet data "job_description_id") = .ok a.job_description_id ∧
    parseOptUUID (dictGet data "recruiter_id") = .ok a.recruiter_id ∧
    a.id = dictGet data "id" ∧
    parseOptTimestamp (dictGet data "created_at") = .ok a.created_at ∧
    parseOptTimestamp (dictGet data "deactive_at") = .ok a.deactive_at := by
  unfold ApplicantJobApply.from_dict at h
  split at h
  · cases h
  next appv heq1 =>
    split at h
    · cases h
    next jobv heq2 =>
      split at h
      · cases h
      next recv heq3 =>
        split at h
        · cases h
        next cav heq4 =>
          split at h
          · cases h
          next dav heq5 =>
            cases h
            exact ⟨heq1, heq2, heq3, rfl, heq4, heq5⟩

theorem applicant_from_dict_error_head {data : Row} {m : String}
    (h : Applicant.from_dict data = .error m) : m.data.head? ≠ some 'F' := by
  unfold Applicant.from_dict at h
  split at h
  next e0 heqe0 =>
    cases h
    exact parseOptUUID_error_head heqe0
  next v0 hv0 =>
    split at h
    next e1 heqe1 =>
      cases h
      exact dictGetStrict_error_head heqe1
    next v1 hv1 =>
      split at h
      next e2 heqe2 =>
        cases h
        exact dictGetStrict_error_head heqe2
      next v2 hv2 =>
        split at h
        next e3 heqe3 =>
          cases h
          exact dictGetStrict_error_head heqe3
        next v3 hv3 =>
          split at h
          next e4 heqe4 =>
            cases h
            exact dictGetStrict_error_head heqe4
          next v4 hv4 =>
            split at h
            next e5 heqe5 =>
              cases h
              exact dictGetStrict_error_head heqe5
            next v5 hv5 =>
              split at h
              next e6 heqe6 =>
                cases h
                exact dictGetStrict_error_head heqe6
              next v6 hv6 =>
                split at h
                next e7 heqe7 =>
                  cases h
                  exact dictGetStrict_error_head heqe7
                next v7 hv7 =>
                  split at h
                  next e8 heqe8 =>
                    cases h
                    exact parseOptTimestamp_error_head heqe8
                  next v8 hv8 =>
                    split at h
                    next e9 heqe9 =>
                      cases h
                      exact parseOptTimestamp_error_head heqe9
                    next v9 hv9 =>
                      cases h

theorem client_from_dict_error_head {data : Row} {m : String}
    (h : Client.from_dict data = .error m) : m.data.head? ≠ some 'F' := by
  unfold Client.from_dict at h
  split at h
  next e0 heqe0 =>
    cases h
    exact parseOptUUID_error_head heqe0
  next v0 hv0 =>
    split at h
    next e1 heqe1 =>
      cases h
      exact parseOptTimestamp_error_head heqe1
    next v1 hv1 =>
      split at h
      next e2 heqe2 =>
        cases h
        exact parseOptTimestamp_error_head heqe2
      next v2 hv2 =>
        cases h

theorem update_applicant_ok_some {t : Table} {aid : String} {upd : Row} {a : Applicant}
    (h : (update_applicant t aid upd).1 = .ok (some a)) :
    ∃ r, r ∈ t ∧ matchesEq r "id" (.vstr aid) = true ∧
      Applicant.from_dict (applyUpdates r upd) = .ok a := by
  have hh : (match (t.filter (fun r => matchesEq r "id" (.vstr aid))).map
      (fun r => applyUpdates r upd) with
    | [] => (.ok none : Except String (Option Applicant))
    | r :: _ => (Applicant.from_dict r).map some) = .ok (some a) := h
  cases hfil : t.filter (fun r => matchesEq r "id" (.vstr aid)) with
  | nil => rw [hfil] at hh; simp at hh
  | cons r rest =>
    rw [hfil] at hh
    simp only [List.map] at hh
    have hr : r ∈ t.filter (fun r => matchesEq r "id" (.vstr aid)) := by
      rw [hfil]; exact List.mem_cons_self _ _
    have hmem := List.mem_filter.mp hr
    cases hfd : Applicant.from_dict (applyUpdates r upd) with
    | error e => rw [hfd] at hh; simp [Except.map] at hh
    | ok a2 =>
      rw [hfd] at hh
      simp [Except.map] at hh
      exact ⟨r, hmem.1, hmem.2, by rw [hfd, hh]⟩

theorem update_applicant_no_match {t : Table} {aid : String} {upd : Row}
    (h : t.filter (fun r => matchesEq r "id" (.vstr aid)) = []) :
    (update_applicant t aid upd).1 = .ok none := by
  show (match (t.filter (fun r => matchesEq r "id" (.vstr aid))).map
      (fun r => applyUpdates r upd) with
    | [] => (.ok none : Except String (Option Applicant))
    | r :: _ => (Applicant.from_dict r).map some) = .ok none
  rw [h]
  rfl

theorem update_applicant_ne_none {t : Table} {aid : String} {upd : Row}
    (hmatch : t.any (fun r => matchesEq r "id" (.vstr aid)) = true) :
    (update_applicant t aid upd).1 ≠ .ok none := by
  obtain ⟨r0, hr0, hp0⟩ := List.any_eq_true.mp hmatch
  have hmem : r0 ∈ t.filter (fun r => matchesEq r "id" (.vstr aid)) :=
    List.mem_filter.mpr ⟨hr0, hp0⟩
  intro h
  have hh : (match (t.filter (fun r => matchesEq r "id" (.vstr aid))).map
      (fun r => applyUpdates r upd) with
    | [] => (.ok none : Except String (Option Applicant))
    | r :: _ => (Applicant.from_dict r).map some) = .ok none := h
  cases hfil : t.filter (fun r => matchesEq r "id" (.vstr aid)) with
  | nil => rw [hfil] at hmem; simp at hmem
  | cons r rest =>
    rw [hfil] at hh
    simp only [List.map] at hh
    cases hfd : Applicant.from_dict (applyUpdates r upd) with
    | error e => rw [hfd] at hh; simp [Except.map] at hh
    | ok a2 => rw [hfd] at hh; simp [Except.map] at hh

theorem update_jd_ok_some {t : Table} {jid : String} {upd : Row} {j : JobDescription}
    (h : (update_job_description t jid upd).1 = .ok (some j)) :
    ∃ r, r ∈ t ∧ matchesEq r "id" (.vstr jid) = true ∧
      JobDescription.from_dict (applyUpdates r upd) = .ok j := by
  have hh : (match (t.filter (fun r => matchesEq r "id" (.vstr jid))).map
      (fun r => applyUpdates r upd) with
    | [] => (.ok none : Except String (Option JobDescription))
    | r :: _ => (JobDescription.from_dict r).map some) = .ok (some j) := h
  cases hfil : t.filter (fun r => matchesEq r "id" (.vstr jid)) with
  | nil => rw [hfil] at hh; simp at hh
  | cons r rest =>
    rw [hfil] at hh
    simp only [List.map] at hh
    have hr : r ∈ t.filter (fun r => matchesEq r "id" (.vstr jid)) := by
      rw [hfil]; exact List.mem_cons_self _ _
    have hmem := List.mem_filter.mp hr
    cases hfd : JobDescription.from_dict (applyUpdates r upd) with
    | error e => rw [hfd] at hh; simp [Except.map] at hh
    | ok j2 =>
      rw [hfd] at hh
      simp [Except.map] at hh
      exact ⟨r, hmem.1, hmem.2, by rw [hfd, hh]⟩

theorem update_jd_ne_none {t : Table} {jid : String} {upd : Row}
    (hmatch : t.any (fun r => matchesEq r "id" (.vstr jid)) = true) :
    (update_job_description t jid upd).1 ≠ .ok none := by
  obtain ⟨r0, hr0, hp0⟩ := List.any_eq_true.mp hmatch
  have hmem : r0 ∈ t.filter (fun r => matchesEq r "id" (.vstr jid)) :=
    List.mem_filter.mpr ⟨hr0, hp0⟩
  intro h
  have hh : (match (t.filter (fun r => matchesEq r "id" (.vstr jid))).map
      (fun r => applyUpdates r upd) with
    | [] => (.ok none : Except String (Option JobDescription))
    | r :: _ => (JobDescription.from_dict r).map some) = .ok none := h
  cases hfil : t.filter (fun r => matchesEq r "id" (.vstr jid)) with
  | nil => rw [hfil] at hmem; simp at hmem
  | cons r rest =>
    rw [hfil] at hh
    simp only [List.map] at hh
    cases hfd : JobDescription.from_dict (applyUpdates r upd) with
    | error e => rw [hfd] at hh; simp [Except.map] at hh
    | ok j2 => rw [hfd] at hh; simp [Except.map] at hh

theorem matchesEq_setField_ne (r : Row) (kf k : String) (vf v : Value) (h : k ≠ kf) :
    matchesEq (setField r kf vf) k v = matchesEq r k v := by
  cases v <;> simp [matchesEq, dictGet, rowLookup_setField_ne r kf k vf h]

/- ----------------------------------------------------------------- -/
/- Claim C2                                                           -/
/- ----------------------------------------------------------------- -/

/-- Claim C2: for every job description id that matches a row,
close_job_description yields a result whose status is CLOSED and whose
deactive_at is the supplied (non-null) instant, and
reopen_job_description yields a result whose status is OPEN and whose
deactive_at is null; with a matching row neither returns the absent
value. -/
theorem claim_C2_close_reopen (t : Table) (job_id now : String)
    (hnow : isValidISO now = true) :
    (∀ jd, (close_job_description t job_id now).1 = .ok (some jd) →
        jd.status = .vstr "CLOSED" ∧ jd.deactive_at = some now) ∧
    (∀ jd, (reopen_job_description t job_id).1 = .ok (some jd) →
        jd.status = .vstr "OPEN" ∧ jd.deactive_at = none) ∧
    (t.any (fun r => matchesEq r "id" (.vstr job_id)) = true →
        (close_job_description t job_id now).1 ≠ .ok none ∧
        (reopen_job_description t job_id).1 ≠ .ok none) := by
  refine ⟨?_, ?_, fun hm => ⟨update_jd_ne_none hm, update_jd_ne_none hm⟩⟩
  · intro jd h
    obtain ⟨r, hrt, hpred, hfd⟩ := update_jd_ok_some h
    rw [applyUpdates_two] at hfd
    obtain ⟨_, _, _, hstatus, _, _, _, _, hda⟩ := jd_from_dict_ok_inv hfd
    constructor
    · rw [hstatus]
      simp [dictGetD, rowLookup_setField_self]
    · have hlook : dictGet (setField (setField r "deactive_at" (.vstr now)) "status"
          (.vstr "CLOSED")) "deactive_at" = .vstr now := by
        simp [dictGet,
          rowLookup_setField_ne (setField r "deactive_at" (.vstr now)) "status" "deactive_at"
            (.vstr "CLOSED") (by decide),
          rowLookup_setField_self]
      rw [hlook, parseOptTimestamp_valid hnow] at hda
      injection hda with h2
      exact h2.symm
  · intro jd h
    obtain ⟨r, hrt, hpred, hfd⟩ := update_jd_ok_some h
    rw [applyUpdates_two] at hfd
    obtain ⟨_, _, _, hstatus, _, _, _, _, hda⟩ := jd_from_dict_ok_inv hfd
    constructor
    · rw [hstatus]
      simp [dictGetD, rowLookup_setField_self]
    · have hlook : dictGet (setField (setField r "deactive_at" .vnone) "status"
          (.vstr "OPEN")) "deactive_at" = .vnone := by
        simp [dictGet,
          rowLookup_setField_ne (setField r "deactive_at" .vnone) "status" "deactive_at"
            (.vstr "OPEN") (by decide),
          rowLookup_setField_self]
      rw [hlook, parseOptTimestamp_vnone] at hda
      injection hda with h2
      exact h2.symm

def c2Row : Row :=
  [("id", .vstr "33333333-3333-3333-3333-333333333333"),
   ("min_salary", .vint 100), ("status", .vstr "OPEN"),
   ("created_at", .vstr "2024-01-01T00:00:00")]

def c2Table : Table := [c2Row]

def c2Closed : JobDescription :=
  { min_salary := .vint 100, status := .vstr "CLOSED", description := .vnone,
    max_salary := .vnone, recruiter_id := .vnone, client_id := none,
    id := some "33333333333333333333333333333333",
    created_at := some "2024-01-01T00:00:00",
    deactive_at := some "2024-03-03T00:00:00" }

def c2Opened : JobDescription :=
  { min_salary := .vint 100, status := .vstr "OPEN", description := .vnone,
    max_salary := .vnone, recruiter_id := .vnone, client_id := none,
    id := some "33333333333333333333333333333333",
    created_at := some "2024-01-01T00:00:00",
    deactive_at := none }

/-- Witness for claim C2 on a concrete one-row table. -/
theorem claim_C2_close_reopen_witness :
    c2Closed.status = .vstr "CLOSED" ∧ c2Closed.deactive_at = some "2024-03-03T00:00:00" ∧
    c2Opened.status = .vstr "OPEN" ∧ c2Opened.deactive_at = none ∧
    (close_job_description c2Table "33333333-3333-3333-3333-333333333333"
      "2024-03-03T00:00:00").1 ≠ .ok none := by
  have h := claim_C2_close_reopen c2Table "33333333-3333-3333-3333-333333333333"
    "2024-03-03T00:00:00" (by decide)
  have hc := h.1 c2Closed (by rfl)
  have ho := h.2.1 c2Opened (by rfl)
  have hn := (h.2.2 (by decide)).1
  exact ⟨hc.1, hc.2, ho.1, ho.2, hn⟩

/- ----------------------------------------------------------------- -/
/- Claim C3                                                           -/
/- ----------------------------------------------------------------- -/

/-- Claim C3: change_job_status updates only the status field of the
matched rows: stored rows change exactly at the status column, every
other column (deactive_at included) keeps its prior value, and the
returned entity's deactive_at is decoded from the pre-call value, so a
CLOSED-but-active or OPEN-but-inactive record can be produced. -/
theorem claim_C3_change_status_frame (t : Table) (job_id status : String) :
    ((change_job_status t job_id status).2 =
      t.map (fun r => if matchesEq r "id" (.vstr job_id)
                      then setField r "status" (.vstr status) else r)) ∧
    (∀ (r : Row) (k : String), k ≠ "status" →
      rowLookup (setField r "status" (.vstr status)) k = rowLookup r k) ∧
    (∀ r : Row, rowLookup (setField r "status" (.vstr status)) "status" =
      some (.vstr status)) ∧
    (∀ jd, (change_job_status t job_id status).1 = .ok (some jd) →
      jd.status = .vstr status ∧
      ∃ r, r ∈ t ∧ matchesEq r "id" (.vstr job_id) = true ∧
        parseOptTimestamp (dictGet r "deactive_at") = .ok jd.deactive_at) := by
  refine ⟨rfl, ?_, ?_, ?_⟩
  · intro r k hk
    exact rowLookup_setField_ne r "status" k (.vstr status) hk
  · intro r
    exact rowLookup_setField_self r "status" (.vstr status)
  · intro jd h
    obtain ⟨r, hrt, hpred, hfd⟩ := update_jd_ok_some h
    rw [applyUpdates_one] at hfd
    obtain ⟨_, _, _, hstatus, _, _, _, _, hda⟩ := jd_from_dict_ok_inv hfd
    constructor
    · rw [hstatus]
      simp [dictGetD, rowLookup_setField_self]
    · refine ⟨r, hrt, hpred, ?_⟩
      have hlook : dictGet (setField r "status" (.vstr status)) "deactive_at"
          = dictGet r "deactive_at" := by
        simp [dictGet, rowLookup_setField_ne r "status" "deactive_at" (.vstr status) (by decide)]
      rw [hlook] at hda
      exact hda

def c3Row : Row :=
  [("id", .vstr "44444444-4444-4444-4444-444444444444"),
   ("min_salary", .vint 50), ("status", .vstr "OPEN"),
   ("deactive_at", .vstr "2024-02-02T00:00:00")]

def c3Table : Table := [c3Row]

def c3Paused : JobDescription :=
  { min_salary := .vint 50, status := .vstr "PAUSED", description := .vnone,
    max_salary := .vnone, recruiter_id := .vnone, client_id := none,
    id := some "44444444444444444444444444444444",
    created_at := none,
    deactive_at := some "2024-02-02T00:00:00" }

/-- Witness for claim C3 on a concrete active-with-status row: the
deactive_at column keeps its prior value through change_job_status. -/
theorem claim_C3_change_status_frame_witness :
    rowLookup (setField c3Row "status" (.vstr "PAUSED")) "deactive_at" =
      rowLookup c3Row "deactive_at" ∧
    rowLookup (setField c3Row "status" (.vstr "PAUSED")) "status" = some (.vstr "PAUSED") ∧
    (c3Paused.status = .vstr "PAUSED" ∧
      ∃ r, r ∈ c3Table ∧ matchesEq r "id" (.vstr "44444444-4444-4444-4444-444444444444") = true ∧
        parseOptTimestamp (dictGet r "deactive_at") = .ok c3Paused.deactive_at) := by
  have h := claim_C3_change_status_frame c3Table "44444444-4444-4444-4444-444444444444" "PAUSED"
  exact ⟨h.2.1 c3Row "deactive_at" (by decide), h.2.2.1 c3Row, h.2.2.2 c3Paused (by rfl)⟩

/- ----------------------------------------------------------------- -/
/- Claim C5                                                           -/
/- ----------------------------------------------------------------- -/

/-- Claim C5: update_applicant returns the decoded updated entity when
the store update matches at least one row, and returns the absent value
(without raising) when no row matches the id — in particular for an
empty partial-field mapping on a non-existent id. -/
theorem claim_C5_update (t : Table) (aid : String) (updates : Row) :
    (t.any (fun r => matchesEq r "id" (.vstr aid)) = false →
      (update_applicant t aid updates).1 = .ok none) ∧
    (∀ r rest, t.filter (fun r => matchesEq r "id" (.vstr aid)) = r :: rest →
      (update_applicant t aid updates).1 =
        (Applicant.from_dict (applyUpdates r updates)).map some) := by
  constructor
  · intro h
    have hfil : t.filter (fun r => matchesEq r "id" (.vstr aid)) = [] := by
      cases hfil : t.filter (fun r => matchesEq r "id" (.vstr aid)) with
      | nil => rfl
      | cons r rest =>
        exfalso
        have hr : r ∈ t.filter (fun r => matchesEq r "id" (.vstr aid)) := by
          rw [hfil]; exact List.mem_cons_self _ _
        have hm := List.mem_filter.mp hr
        have h2 : t.any (fun r => matchesEq r "id" (.vstr aid)) = true :=
          List.any_eq_true.mpr ⟨r, hm.1, hm.2⟩
        rw [h] at h2
        cases h2
    exact update_applicant_no_match hfil
  · intro r rest hfil
    show (match (t.filter (fun r => matchesEq r "id" (.vstr aid))).map
        (fun r => applyUpdates r updates) with
      | [] => (.ok none : Except String (Option Applicant))
      | r :: _ => (Applicant.from_dict r).map some) =
      (Applicant.from_dict (applyUpdates r updates)).map some
    rw [hfil]
    rfl

def c5Row : Row :=
  [("id", .vstr "55555555-5555-5555-5555-555555555555"),
   ("name", .vstr "Bo"), ("last_name", .vstr "Li"), ("linkedin", .vstr "lk"),
   ("email", .vstr "b@x"), ("phone", .vstr "2"), ("city", .vstr "BA"),
   ("english", .vstr "C1")]

def c5Table : Table := [c5Row]

/-- Witness for claim C5: an empty update on a non-matching id returns
the absent value; an update on the matching id returns the decoded
updated row. -/
theorem claim_C5_update_witness :
    (update_applicant c5Table "66666666-6666-6666-6666-666666666666" []).1 = .ok none ∧
    (update_applicant c5Table "55555555-5555-5555-5555-555555555555"
        [("city", .vstr "NY")]).1 =
      (Applicant.from_dict (applyUpdates c5Row [("city", .vstr "NY")])).map some := by
  constructor
  · exact (claim_C5_update c5Table "66666666-6666-6666-6666-666666666666" []).1 (by decide)
  · exact (claim_C5_update c5Table "55555555-5555-5555-5555-555555555555"
      [("city", .vstr "NY")]).2 c5Row [] (by rfl)

/- ----------------------------------------------------------------- -/
/- Claim C6                                                           -/
/- ----------------------------------------------------------------- -/

theorem mem_update_record_snd {t : Table} {idv : Value} {upd : Row} {r : Row}
    (h : r ∈ (update_record t idv upd).2) :
    ∃ p, p ∈ t ∧ r = (if matchesEq p "id" idv then applyUpdates p upd else p) := by
  have h2 : r ∈ t.map (fun p => if matchesEq p "id" idv then applyUpdates p upd else p) := h
  obtain ⟨p, hp, he⟩ := List.mem_map.mp h2
  exact ⟨p, hp, he.symm⟩

/-- Claim C6: deactivate then reactivate leaves the entity with a null
deactivation timestamp (both in the returned entity and in the stored
row), and invoking deactivate while the entity is already inactive is
accepted — it leaves the row inactive with the refreshed timestamp
value rather than rejecting the call. -/
theorem claim_C6_deactivate_reactivate (t : Table) (id now1 now2 : String) :
    (∀ a, (reactivate_applicant (deactivate_applicant t id now1).2 id).1 = .ok (some a) →
        a.deactive_at = none) ∧
    (∀ r, r ∈ (reactivate_applicant (deactivate_applicant t id now1).2 id).2 →
        matchesEq r "id" (.vstr id) = true → dictGet r "deactive_at" = .vnone) ∧
    (∀ r, r ∈ (deactivate_applicant (deactivate_applicant t id now1).2 id now2).2 →
        matchesEq r "id" (.vstr id) = true → dictGet r "deactive_at" = .vstr now2) ∧
    ((deactivate_applicant t id now1).2.any (fun r => matchesEq r "id" (.vstr id)) = true →
        (deactivate_applicant (deactivate_applicant t id now1).2 id now2).1 ≠ .ok none) := by
  refine ⟨?_, ?_, ?_, fun hm => update_applicant_ne_none hm⟩
  · intro a h
    obtain ⟨r, _, _, hfd⟩ := update_applicant_ok_some h
    rw [applyUpdates_one] at hfd
    obtain ⟨_, _, _, _, _, _, _, _, _, hda⟩ := applicant_from_dict_ok_inv hfd
    rw [dictGet_setField_self, parseOptTimestamp_vnone] at hda
    injection hda with h2
    exact h2.symm
  · intro r hr hmr
    obtain ⟨q, hq, hrq⟩ := mem_update_record_snd (show r ∈ (update_record
        (deactivate_applicant t id now1).2 (.vstr id) [("deactive_at", .vnone)]).2 from hr)
    by_cases hq2 : matchesEq q "id" (.vstr id) = true
    · rw [hrq, if_pos hq2, applyUpdates_one, dictGet_setField_self]
    · exfalso
      rw [hrq, if_neg hq2] at hmr
      exact hq2 hmr
  · intro r hr hmr
    obtain ⟨q, hq, hrq⟩ := mem_update_record_snd (show r ∈ (update_record
        (deactivate_applicant t id now1).2 (.vstr id) [("deactive_at", .vstr now2)]).2 from hr)
    by_cases hq2 : matchesEq q "id" (.vstr id) = true
    · rw [hrq, if_pos hq2, applyUpdates_one, dictGet_setField_self]
    · exfalso
      rw [hrq, if_neg hq2] at hmr
      exact hq2 hmr

def c6Row : Row :=
  [("id", .vstr "77777777-7777-7777-7777-777777777777"),
   ("name", .vstr "Cy"), ("last_name", .vstr "Wu"), ("linkedin", .vstr "lw"),
   ("email", .vstr "c@x"), ("phone", .vstr "3"), ("city", .vstr "SP"),
   ("english", .vstr "B1")]

def c6Table : Table := [c6Row]

def c6Reactivated : Applicant :=
  { name := .vstr "Cy", last_name := .vstr "Wu", linkedin := .vstr "lw",
    email := .vstr "c@x", phone := .vstr "3", city := .vstr "SP",
    english := .vstr "B1", id := some "77777777777777777777777777777777",
    created_at := none, deactive_at := none }

def c6RowReact : Row :=
  [("id", .vstr "77777777-7777-7777-7777-777777777777"),
   ("name", .vstr "Cy"), ("last_name", .vstr "Wu"), ("linkedin", .vstr "lw"),
   ("email", .vstr "c@x"), ("phone", .vstr "3"), ("city", .vstr "SP"),
   ("english", .vstr "B1"), ("deactive_at", .vnone)]

def c6RowRedeact : Row :=
  [("id", .vstr "77777777-7777-7777-7777-777777777777"),
   ("name", .vstr "Cy"), ("last_name", .vstr "Wu"), ("linkedin", .vstr "lw"),
   ("email", .vstr "c@x"), ("phone", .vstr "3"), ("city", .vstr "SP"),
   ("english", .vstr "B1"), ("deactive_at", .vstr "2024-06-06T00:00:00")]

/-- Witness for claim C6 on a concrete one-row table. -/
theorem claim_C6_deactivate_reactivate_witness :
    c6Reactivated.deactive_at = none ∧
    dictGet c6RowReact "deactive_at" = .vnone ∧
    dictGet c6RowRedeact "deactive_at" = .vstr "2024-06-06T00:00:00" ∧
    (deactivate_applicant (deactivate_applicant c6Table
        "77777777-7777-7777-7777-777777777777" "2024-05-05T00:00:00").2
        "77777777-7777-7777-7777-777777777777" "2024-06-06T00:00:00").1 ≠ .ok none := by
  have h := claim_C6_deactivate_reactivate c6Table "77777777-7777-7777-7777-777777777777"
    "2024-05-05T00:00:00" "2024-06-06T00:00:00"
  refine ⟨h.1 c6Reactivated (by rfl), ?_, ?_, h.2.2.2 (by decide)⟩
  · exact h.2.1 c6RowReact (by decide) (by decide)
  · exact h.2.2.1 c6RowRedeact (by decide) (by decide)

/- ----------------------------------------------------------------- -/
/- Claim C1                                                           -/
/- ----------------------------------------------------------------- -/

theorem filterIf_ok_mem {α : Type} {b : Bool} {p : α → Except String Bool}
    {l res : List α} (h : filterIf b p l = .ok res) :
    ∀ x ∈ res, x ∈ l ∧ (b = true → p x = .ok true) := by
  intro x hx
  cases b with
  | false =>
    have h2 : (.ok l : Except String (List α)) = .ok res := h
    cases h2
    exact ⟨hx, fun hb => by cases hb⟩
  | true =>
    have h2 : filterE p l = .ok res := h
    obtain ⟨hm, hp⟩ := filterE_ok_mem p l res h2 x hx
    exact ⟨hm, fun _ => hp⟩

theorem salaryMinFilter_ok_mem {mn : Option Int} {jobs res : List JobDescription}
    (h : salaryMinFilter mn jobs = .ok res) : ∀ j ∈ res, j ∈ jobs := by
  intro j hj
  cases mn with
  | none =>
    have h2 : (.ok jobs : Except String (List JobDescription)) = .ok res := h
    cases h2
    exact hj
  | some m => exact (filterE_ok_mem _ jobs res h j hj).1

theorem salaryMaxFilter_ok_mem {mx : Option Int} {jobs res : List JobDescription}
    (h : salaryMaxFilter mx jobs = .ok res) : ∀ j ∈ res, j ∈ jobs := by
  intro j hj
  cases mx with
  | none =>
    have h2 : (.ok jobs : Except String (List JobDescription)) = .ok res := h
    cases h2
    exact hj
  | some m => exact (filterE_ok_mem _ jobs res h j hj).1

theorem query_rows_null {t : Table} {fs : Row} {k : String}
    (hin : (k, Value.vnone) ∈ fs) (hne : fs.isEmpty = false) :
    ∀ r ∈ query_table t (some fs), dictGet r k = .vnone := by
  intro r hr
  obtain ⟨hm, _⟩ := mem_query_table_some hr hne
  exact matchesEq_vnone (rowMatches_mem hm hin)

theorem append_single_isEmpty (fs : Row) (p : String × Value) :
    (fs ++ [p]).isEmpty = false := by
  cases fs <;> rfl

theorem decodedActiveJD {rows : List Row} {jobs : List JobDescription}
    (hrows : ∀ r ∈ rows, dictGet r "deactive_at" = .vnone)
    (h : mapE JobDescription.from_dict rows = .ok jobs) :
    ∀ j ∈ jobs, j.deactive_at = none := by
  intro j hj
  obtain ⟨r, hr, hfd⟩ := mapE_ok_mem _ rows jobs h j hj
  obtain ⟨_, _, _, _, _, _, _, _, hda⟩ := jd_from_dict_ok_inv hfd
  rw [hrows r hr, parseOptTimestamp_vnone] at hda
  injection hda with h2
  exact h2.symm

theorem decodedActiveApplicant {rows : List Row} {l : List Applicant}
    (hrows : ∀ r ∈ rows, dictGet r "deactive_at" = .vnone)
    (h : mapE Applicant.from_dict rows = .ok l) :
    ∀ a ∈ l, a.deactive_at = none := by
  intro a ha
  obtain ⟨r, hr, hfd⟩ := mapE_ok_mem _ rows l h a ha
  obtain ⟨_, _, _, _, _, _, _, _, _, hda⟩ := applicant_from_dict_ok_inv hfd
  rw [hrows r hr, parseOptTimestamp_vnone] at hda
  injection hda with h2
  exact h2.symm

theorem decodedActiveClient {rows : List Row} {l : List Client}
    (hrows : ∀ r ∈ rows, dictGet r "deactive" = .vnone)
    (h : mapE Client.from_dict rows = .ok l) :
    ∀ c ∈ l, c.deactive = none := by
  intro c hc
  obtain ⟨r, hr, hfd⟩ := mapE_ok_mem _ rows l h c hc
  obtain ⟨_, _, _, hda⟩ := client_from_dict_ok_inv hfd
  rw [hrows r hr, parseOptTimestamp_vnone] at hda
  injection hda with h2
  exact h2.symm

theorem decodedActiveRecruiter {rows : List Row} {l : List Recruiter}
    (hrows : ∀ r ∈ rows, dictGet r "deactive_at" = .vnone)
    (h : mapE Recruiter.from_dict rows = .ok l) :
    ∀ x ∈ l, x.deactive_at = none := by
  intro x hx
  obtain ⟨r, hr, hfd⟩ := mapE_ok_mem _ rows l h x hx
  obtain ⟨_, _, _, _, hda⟩ := recruiter_from_dict_ok_inv hfd
  rw [hrows r hr, parseOptTimestamp_vnone] at hda
  injection hda with h2
  exact h2.symm

theorem decodedActiveApplication {rows : List Row} {l : List ApplicantJobApply}
    (hrows : ∀ r ∈ rows, dictGet r "deactive_at" = .vnone)
    (h : mapE ApplicantJobApply.from_dict rows = .ok l) :
    ∀ x ∈ l, x.deactive_at = none := by
  intro x hx
  obtain ⟨r, hr, hfd⟩ := mapE_ok_mem _ rows l h x hx
  obtain ⟨_, _, _, _, _, hda⟩ := apply_from_dict_ok_inv hfd
  rw [hrows r hr, parseOptTimestamp_vnone] at hda
  injection hda with h2
  exact h2.symm

theorem searchJD_data_active (t : Table) (fs : Row) :
    ∀ r ∈ (if !fs.isEmpty then query_table t (some (fs ++ [("deactive_at", Value.vnone)]))
           else query_table t (some [("deactive_at", Value.vnone)])),
      dictGet r "deactive_at" = .vnone := by
  intro r hr
  by_cases hf : fs.isEmpty = true
  · rw [if_neg (by simp [hf])] at hr
    exact query_rows_null (List.mem_cons_self _ _) rfl r hr
  · rw [if_pos (by simp [Bool.not_eq_true] at hf ⊢; exact hf)] at hr
    exact query_rows_null (List.mem_append_right fs (List.mem_cons_self _ _))
      (append_single_isEmpty fs _) r hr

theorem appFilters_no_deactive (a b c : Option String) :
    rowLookup (((if optParamTruthy a then [("applicant_id", Value.vstr (optStr a))] else [])
      ++ (if optParamTruthy b then [("job_description_id", Value.vstr (optStr b))] else []))
      ++ (if optParamTruthy c then [("recruiter_id", Value.vstr (optStr c))] else []))
      "deactive_at" = none := by
  by_cases ha : optParamTruthy a = true <;>
    by_cases hb : optParamTruthy b = true <;>
      by_cases hc : optParamTruthy c = true <;>
        simp [ha, hb, hc, rowLookup]

/-- Claim C1 (amended): searches on job descriptions, clients,
recruiters and applications always include the implicit active-only
predicate, so every returned entity has a null deactivation timestamp;
search_applicants includes it only when no exact-match filter (email,
english_level) is supplied — with such a filter the predicate is
omitted. -/
theorem claim_C1_active_by_default_amended (t : Table) :
    (∀ st cid rid mn mx res, search_job_descriptions t st cid rid mn mx = .ok res →
      ∀ j ∈ res, j.deactive_at = none) ∧
    (∀ name city english email res,
      optParamTruthy email = false → optParamTruthy english = false →
      search_applicants t name city english email = .ok res →
      ∀ a ∈ res, a.deactive_at = none) ∧
    (∀ d res, search_clients t d = .ok res → ∀ c ∈ res, c.deactive = none) ∧
    (∀ n d res, search_recruiters t n d = .ok res → ∀ x ∈ res, x.deactive_at = none) ∧
    (∀ aid jid rid res, search_applications t aid jid rid = .ok res →
      ∀ x ∈ res, x.deactive_at = none) := by
  refine ⟨?_, ?_, ?_, ?_, ?_⟩
  · intro st cid rid mn mx res h j hj
    simp only [search_job_descriptions] at h
    split at h
    · cases h
    next jobs hjobs =>
      split at h
      · cases h
      next jobs2 hj2 =>
        have hsub : j ∈ jobs := salaryMinFilter_ok_mem hj2 j (salaryMaxFilter_ok_mem h j hj)
        exact decodedActiveJD (searchJD_data_active t _) hjobs j hsub
  · intro name city english email res hem heng h a ha
    simp only [search_applicants, hem, heng, if_false, Bool.false_eq_true,
      List.nil_append, List.append_nil, List.isEmpty_nil, if_true] at h
    split at h
    · cases h
    next l1 hl1 =>
      split at h
      · cases h
      next l2 hl2 =>
        have hsub : a ∈ l1 := (filterIf_ok_mem hl2 a ((filterIf_ok_mem h a ha).1)).1
        exact decodedActiveApplicant
          (query_rows_null (List.mem_cons_self _ _) rfl) hl1 a hsub
  · intro d res h c hc
    simp only [search_clients] at h
    split at h
    · cases h
    next l1 hl1 =>
      have hsub : c ∈ l1 := (filterIf_ok_mem h c hc).1
      exact decodedActiveClient
        (query_rows_null (List.mem_cons_self _ _) rfl) hl1 c hsub
  · intro n d res h x hx
    simp only [search_recruiters] at h
    split at h
    · cases h
    next l1 hl1 =>
      split at h
      · cases h
      next l2 hl2 =>
        have hsub : x ∈ l1 := (filterIf_ok_mem hl2 x ((filterIf_ok_mem h x hx).1)).1
        exact decodedActiveRecruiter
          (query_rows_null (List.mem_cons_self _ _) rfl) hl1 x hsub
  · intro aid jid rid res h x hx
    simp only [search_applications, appFilters_no_deactive, Option.isNone_none, if_true] at h
    exact decodedActiveApplication
      (query_rows_null (List.mem_append_right _ (List.mem_cons_self _ _))
        (append_single_isEmpty _ _)) h x hx

def c1Row : Row :=
  [("id", .vstr "11111111-1111-1111-1111-111111111111"),
   ("name", .vstr "Ana"), ("last_name", .vstr "Diaz"), ("linkedin", .vstr "li"),
   ("email", .vstr "a@x"), ("phone", .vstr "1"), ("city", .vstr "Rio"),
   ("english", .vstr "B2"),
   ("created_at", .vstr "2024-01-01T00:00:00"),
   ("deactive_at", .vstr "2024-02-02T00:00:00")]

def c1Table : Table := [c1Row]

/-- Counterexample to claim C1 as stated: on a table holding one
deactivated applicant, search_applicants with the exact-match email
filter returns that applicant with a non-null deactivation timestamp
(the active-only predicate was dropped), while the same search without
the filter excludes the row. -/
theorem claim_C1_counterexample :
    (search_applicants c1Table none none none (some "a@x")).map
      (List.map Applicant.deactive_at) = .ok [some "2024-02-02T00:00:00"] ∧
    (search_applicants c1Table none none none none).map
      (List.map Applicant.deactive_at) = .ok [] := ⟨rfl, rfl⟩

def c1wJDRow : Row :=
  [("id", .vstr "88888888-8888-8888-8888-888888888888"),
   ("min_salary", .vint 70), ("status", .vstr "OPEN")]

def c1wJD : JobDescription :=
  { min_salary := .vint 70, status := .vstr "OPEN", description := .vnone,
    max_salary := .vnone, recruiter_id := .vnone, client_id := none,
    id := some "88888888888888888888888888888888", created_at := none,
    deactive_at := none }

def c1wAppRow : Row :=
  [("name", .vstr "Ana"), ("last_name", .vstr "Diaz"), ("linkedin", .vstr "li"),
   ("email", .vstr "a@x"), ("phone", .vstr "1"), ("city", .vstr "Rio"),
   ("english", .vstr "B2")]

def c1wApp : Applicant :=
  { name := .vstr "Ana", last_name := .vstr "Diaz", linkedin := .vstr "li",
    email := .vstr "a@x", phone := .vstr "1", city := .vstr "Rio",
    english := .vstr "B2", id := none, created_at := none, deactive_at := none }

def c1wClient : Client :=
  { description := .vstr "Globant - IT", id := none, created_at := none, deactive := none }

def c1wRec : Recruiter :=
  { name := .vstr "Rob", description := .vnone, id := .rnone,
    created_at := none, deactive_at := none }

def c1wApply : ApplicantJobApply :=
  { applicant_id := none, job_description_id := none, id := .vint 1,
    created_at := none, deactive_at := none, recruiter_id := none }

/-- Witness for the amended claim C1 on concrete one-row tables. -/
theorem claim_C1_active_by_default_amended_witness :
    c1wJD.deactive_at = none ∧ c1wApp.deactive_at = none ∧
    c1wClient.deactive = none ∧ c1wRec.deactive_at = none ∧
    c1wApply.deactive_at = none := by
  have h1 := (claim_C1_active_by_default_amended [c1wJDRow]).1
    (some "OPEN") none none none none [c1wJD] (by rfl) c1wJD (List.mem_cons_self _ _)
  have h2 := (claim_C1_active_by_default_amended [c1wAppRow]).2.1
    none none none none [c1wApp] rfl rfl (by rfl) c1wApp (List.mem_cons_self _ _)
  have h3 := (claim_C1_active_by_default_amended [[("description", .vstr "Globant - IT")]]).2.2.1
    (some "globant") [c1wClient] (by rfl) c1wClient (List.mem_cons_self _ _)
  have h4 := (claim_C1_active_by_default_amended [[("name", .vstr "Rob")]]).2.2.2.1
    (some "ro") none [c1wRec] (by rfl) c1wRec (List.mem_cons_self _ _)
  have h5 := (claim_C1_active_by_default_amended [[("id", .vint 1)]]).2.2.2.2
    none none none [c1wApply] (by rfl) c1wApply (List.mem_cons_self _ _)
  exact ⟨h1, h2, h3, h4, h5⟩

/- ----------------------------------------------------------------- -/
/- Claim C4                                                           -/
/- ----------------------------------------------------------------- -/

def c4Client : Client :=
  { description := .vstr "d", id := some "22222222222222222222222222222222",
    created_at := none, deactive := none }

/-- Counterexample to claim C4 as stated: create_client does not send
to_wire(entity) — for a client with a caller-set id the insert payload
has the id removed while to_wire contains it, and a store echoing its
payload returns an entity with no id. -/
theorem claim_C4_counterexample :
    rowLookup (clientInsertPayload c4Client) "id" = none ∧
    rowLookup (Client.to_dict c4Client) "id" =
      some (.vstr "22222222-2222-2222-2222-222222222222") ∧
    clientInsertPayload c4Client ≠ Client.to_dict c4Client ∧
    create_client (fun r => [r]) c4Client =
      .ok { description := .vstr "d", id := none, created_at := none, deactive := none } :=
  ⟨rfl, rfl, by decide, rfl⟩

/-- Claim C4 (amended): create sends the codec payload via insert —
to_wire(entity) for Applicant, and to_wire(entity) with any caller-set
id removed for Client — and raises the creation error if and only if
the store returns zero rows; when the store returns at least one row,
create returns from_wire of the first returned row. -/
theorem claim_C4_create_amended (store : Row → List Row) :
    (∀ a : Applicant,
      (create_applicant store a = .error "Failed to create applicant" ↔
        store a.to_dict = []) ∧
      (∀ r rest, store a.to_dict = r :: rest →
        create_applicant store a = Applicant.from_dict r)) ∧
    (∀ c : Client,
      (create_client store c = .error "Failed to create client" ↔
        store (clientInsertPayload c) = []) ∧
      (∀ r rest, store (clientInsertPayload c) = r :: rest →
        create_client store c = Client.from_dict r)) := by
  constructor
  · intro a
    constructor
    · constructor
      · intro h
        cases hs : store a.to_dict with
        | nil => rfl
        | cons r rest =>
          exfalso
          have hc : create_applicant store a = Applicant.from_dict r := by
            show (match store a.to_dict with
              | r :: _ => Applicant.from_dict r
              | [] => .error "Failed to create applicant") = _
            rw [hs]
          rw [hc] at h
          exact applicant_from_dict_error_head h (by decide)
      · intro h
        show (match store a.to_dict with
          | r :: _ => Applicant.from_dict r
          | [] => .error "Failed to create applicant") = .error "Failed to create applicant"
        rw [h]
    · intro r rest h
      show (match store a.to_dict with
        | r :: _ => Applicant.from_dict r
        | [] => .error "Failed to create applicant") = Applicant.from_dict r
      rw [h]
  · intro c
    constructor
    · constructor
      · intro h
        cases hs : store (clientInsertPayload c) with
        | nil => rfl
        | cons r rest =>
          exfalso
          have hc : create_client store c = Client.from_dict r := by
            show (match store (clientInsertPayload c) with
              | r :: _ => Client.from_dict r
              | [] => .error "Failed to create client") = _
            rw [hs]
          rw [hc] at h
          exact client_from_dict_error_head h (by decide)
      · intro h
        show (match store (clientInsertPayload c) with
          | r :: _ => Client.from_dict r
          | [] => .error "Failed to create client") = .error "Failed to create client"
        rw [h]
    · intro r rest h
      show (match store (clientInsertPayload c) with
        | r :: _ => Client.from_dict r
        | [] => .error "Failed to create client") = Client.from_dict r
      rw [h]

def c4Applicant : Applicant :=
  { name := .vstr "N", last_name := .vstr "L", linkedin := .vstr "K",
    email := .vstr "e@y", phone := .vstr "4", city := .vstr "MX",
    english := .vstr "A2", id := none, created_at := none, deactive_at := none }

/-- Witness for the amended claim C4: an empty store response raises
the creation error; an echoing store makes create return the decoded
payload. -/
theorem claim_C4_create_amended_witness :
    create_applicant (fun _ => []) c4Applicant = .error "Failed to create applicant" ∧
    create_applicant (fun r => [r]) c4Applicant =
      Applicant.from_dict (Applicant.to_dict c4Applicant) ∧
    create_client (fun r => [r]) c4Client = Client.from_dict (clientInsertPayload c4Client) := by
  refine ⟨((claim_C4_create_amended (fun _ => [])).1 c4Applicant).1.mpr rfl, ?_, ?_⟩
  · exact ((claim_C4_create_amended (fun r => [r])).1 c4Applicant).2
      (Applicant.to_dict c4Applicant) [] rfl
  · exact ((claim_C4_create_amended (fun r => [r])).2 c4Client).2
      (clientInsertPayload c4Client) [] rfl

/- ----------------------------------------------------------------- -/
/- Claim C9                                                           -/
/- ----------------------------------------------------------------- -/

theorem rowLookup_removeField_self (r : Row) (k : String) :
    rowLookup (removeField r k) k = none := by
  induction r with
  | nil => rfl
  | cons p rest ih =>
    obtain ⟨k0, v0⟩ := p
    by_cases h : k0 = k
    · simpa [removeField, h] using ih
    · simpa [removeField, List.filter, h, rowLookup] using ih

theorem rowLookup_append (l1 l2 : Row) (k : String) :
    rowLookup (l1 ++ l2) k =
      (match rowLookup l1 k with
       | some v => some v
       | none => rowLookup l2 k) := by
  induction l1 with
  | nil => rfl
  | cons p rest ih =>
    obtain ⟨k0, v0⟩ := p
    by_cases h : k0 = k
    · simp [rowLookup, h]
    · simp [rowLookup, h, ih]

/-- Claim C9: the create_client insert payload never contains an id
field even when the caller supplied one (the store always assigns the
identifier), while Applicant.to_dict does include a caller-set id. -/
theorem claim_C9_client_id_stripped :
    (∀ c : Client, rowLookup (clientInsertPayload c) "id" = none) ∧
    (∀ (c : Client) (u : String), c.id = some u →
      rowLookup (Client.to_dict c) "id" = some (.vstr (uuidCanonical u))) ∧
    (∀ (a : Applicant) (u : String), a.id = some u →
      rowLookup (Applicant.to_dict a) "id" = some (.vstr (uuidCanonical u))) := by
  refine ⟨?_, ?_, ?_⟩
  · intro c
    show rowLookup (if (rowLookup c.to_dict "id").isSome = true
        then removeField c.to_dict "id" else c.to_dict) "id" = none
    split
    · exact rowLookup_removeField_self _ _
    next hnone =>
      cases hx : rowLookup (Client.to_dict c) "id"
      · rfl
      · rw [hx] at hnone; simp at hnone
  · intro c u hu
    unfold Client.to_dict
    rw [hu, rowLookup_append]
    by_cases hd : c.description ≠ .vnone
    · simp [hd, rowLookup]
    · simp [hd, rowLookup]
  · intro a u hu
    unfold Applicant.to_dict
    rw [hu, rowLookup_append]
    simp [rowLookup]

def c9Client : Client :=
  { description := .vnone, id := some "99999999999999999999999999999999",
    created_at := none, deactive := none }

def c9Applicant : Applicant :=
  { name := .vstr "N", last_name := .vstr "L", linkedin := .vstr "K",
    email := .vstr "n@z", phone := .vstr "5", city := .vstr "BG",
    english := .vstr "B1", id := some "99999999999999999999999999999999",
    created_at := none, deactive_at := none }

/-- Witness for claim C9 on a client and an applicant with caller-set ids. -/
theorem claim_C9_client_id_stripped_witness :
    rowLookup (clientInsertPayload c9Client) "id" = none ∧
    rowLookup (Client.to_dict c9Client) "id" =
      some (.vstr "99999999-9999-9999-9999-999999999999") ∧
    rowLookup (Applicant.to_dict c9Applicant) "id" =
      some (.vstr "99999999-9999-9999-9999-999999999999") := by
  refine ⟨claim_C9_client_id_stripped.1 c9Client, ?_, ?_⟩
  · exact claim_C9_client_id_stripped.2.1 c9Client "99999999999999999999999999999999" rfl
  · exact claim_C9_client_id_stripped.2.2 c9Applicant "99999999999999999999999999999999" rfl

/- ----------------------------------------------------------------- -/
/- Claim C8                                                           -/
/- ----------------------------------------------------------------- -/

/-- Claim C8: Recruiter identifier resolution is polymorphic per
instance: a string that parses as a valid opaque unique id is stored as
the parsed id, any other non-null value (an integer, or a string that
is not a valid id) is kept unchanged as its raw value, resolution never
raises, and a decoded recruiter carries exactly this resolution of the
incoming id field. -/
theorem claim_C8_recruiter_id_resolution :
    (∀ s u, uuidNormalize s = some u → resolveRecruiterId (.vstr s) = .ruuid u) ∧
    (∀ s, uuidNormalize s = none → resolveRecruiterId (.vstr s) = .raw (.vstr s)) ∧
    (∀ n : Int, resolveRecruiterId (.vint n) = .raw (.vint n)) ∧
    (∀ data rec, Recruiter.from_dict data = .ok rec →
      rec.id = resolveRecruiterId (dictGet data "id")) := by
  refine ⟨?_, ?_, fun n => rfl, ?_⟩
  · intro s u h
    simp [resolveRecruiterId, h]
  · intro s h
    simp [resolveRecruiterId, h]
  · intro data rec h
    exact (recruiter_from_dict_ok_inv h).1

def c8RowInt : Row := [("id", .vint 7), ("name", .vstr "Rob")]

def c8RecInt : Recruiter :=
  { name := .vstr "Rob", description := .vnone, id := .raw (.vint 7),
    created_at := none, deactive_at := none }

/-- Witness for claim C8: a valid opaque id string, an invalid string,
an integer id, and a decoded recruiter row carrying an integer id. -/
theorem claim_C8_recruiter_id_resolution_witness :
    resolveRecruiterId (.vstr "12121212-1212-1212-1212-121212121212") =
      .ruuid "12121212121212121212121212121212" ∧
    resolveRecruiterId (.vstr "not-a-uuid") = .raw (.vstr "not-a-uuid") ∧
    resolveRecruiterId (.vint 7) = .raw (.vint 7) ∧
    c8RecInt.id = resolveRecruiterId (dictGet c8RowInt "id") := by
  refine ⟨?_, ?_, claim_C8_recruiter_id_resolution.2.2.1 7, ?_⟩
  · exact claim_C8_recruiter_id_resolution.1 "12121212-1212-1212-1212-121212121212"
      "12121212121212121212121212121212" (by rfl)
  · exact claim_C8_recruiter_id_resolution.2.1 "not-a-uuid" (by rfl)
  · exact claim_C8_recruiter_id_resolution.2.2.2 c8RowInt c8RecInt (by rfl)

/- ----------------------------------------------------------------- -/
/- Claim C7                                                           -/
/- ----------------------------------------------------------------- -/

theorem rowLookup_mem {r : Row} {k : String} {v : Value}
    (h : rowLookup r k = some v) : (k, v) ∈ r := by
  induction r with
  | nil => cases h
  | cons p rest ih =>
    obtain ⟨k0, v0⟩ := p
    by_cases hk : k0 = k
    · subst hk
      simp only [rowLookup, if_pos rfl] at h
      cases h
      exact List.mem_cons_self _ _
    · simp only [rowLookup, if_neg hk] at h
      exact List.mem_cons_of_mem _ (ih h)

theorem dictGet_eq_of_rowLookup {r : Row} {k : String} {v : Value}
    (h : rowLookup r k = some v) : dictGet r k = v := by
  simp [dictGet, h]

theorem dictGetD_eq_of_rowLookup {r : Row} {k : String} {v d : Value}
    (h : rowLookup r k = some v) : dictGetD r k d = v := by
  simp [dictGetD, h]

/-- An identifier column is in canonical spelling: if it holds a string
that parses as an opaque unique id, the canonical form of the parsed id
is that string itself. -/
def canonicalFieldB (data : Row) (k : String) : Bool :=
  match dictGet data k with
  | .vstr s =>
    match uuidNormalize s with
    | some u => uuidCanonical u == s
    | none => true
  | _ => true

theorem canonicalFieldB_spec {data : Row} {k s u : String}
    (h : canonicalFieldB data k = true)
    (hs : dictGet data k = .vstr s) (hn : uuidNormalize s = some u) :
    uuidCanonical u = s := by
  unfold canonicalFieldB at h
  simp only [hs, hn] at h
  exact eq_of_beq h

/-- Field agreement of two wire rows on their overlapping keys. -/
def rowAgree (r1 r2 : Row) : Prop :=
  ∀ k v1 v2, rowLookup r1 k = some v1 → rowLookup r2 k = some v2 → v1 = v2

/-- Claim C7 (amended): for Applicant and JobDescription,
to_wire(from_wire(row)) reproduces every field present in both the
accepted row and the emitted row, provided identifier fields are
spelled canonically (lowercase hyphenated); a non-canonical identifier
spelling is re-emitted in canonical form and differs. -/
theorem claim_C7_roundtrip_amended (data : Row) :
    (∀ a, Applicant.from_dict data = .ok a → canonicalFieldB data "id" = true →
      rowAgree data a.to_dict) ∧
    (∀ j, JobDescription.from_dict data = .ok j → canonicalFieldB data "id" = true →
      canonicalFieldB data "client_id" = true → rowAgree data j.to_dict) := by
  constructor
  · intro a hfd hcanon k v1 v2 h1 h2
    obtain ⟨hid, hname, hlast, hlink, hemail, hphone, hcity, heng, hca, hda⟩ :=
      applicant_from_dict_ok_inv hfd
    have hm := rowLookup_mem h2
    unfold Applicant.to_dict at hm
    rcases List.mem_append.mp hm with hm | hm
    · simp only [List.mem_cons, List.not_mem_nil, or_false, Prod.mk.injEq] at hm
      rcases hm with ⟨hk, hv⟩ | ⟨hk, hv⟩ | ⟨hk, hv⟩ | ⟨hk, hv⟩ | ⟨hk, hv⟩ | ⟨hk, hv⟩ | ⟨hk, hv⟩
      · subst hk; rw [hname] at h1; cases h1; exact hv.symm
      · subst hk; rw [hlast] at h1; cases h1; exact hv.symm
      · subst hk; rw [hlink] at h1; cases h1; exact hv.symm
      · subst hk; rw [hemail] at h1; cases h1; exact hv.symm
      · subst hk; rw [hphone] at h1; cases h1; exact hv.symm
      · subst hk; rw [hcity] at h1; cases h1; exact hv.symm
      · subst hk; rw [heng] at h1; cases h1; exact hv.symm
    · cases hidv : a.id with
      | none => rw [hidv] at hm; cases hm
      | some u =>
        rw [hidv] at hm
        simp only [List.mem_cons, List.not_mem_nil, or_false, Prod.mk.injEq] at hm
        obtain ⟨hk, hv⟩ := hm
        subst hk
        rw [hidv] at hid
        obtain ⟨s, hs, hn⟩ := parseOptUUID_ok_some hid
        have hcan := canonicalFieldB_spec hcanon hs hn
        have hdg := dictGet_eq_of_rowLookup h1
        rw [hdg] at hs
        rw [hv, hcan, hs]
  · intro j hfd hcanon hcanon2 k v1 v2 h1 h2
    obtain ⟨hid, hcid, hmin, hstatus, hdesc, hmax, hrec, hca, hda⟩ :=
      jd_from_dict_ok_inv hfd
    have hm := rowLookup_mem h2
    unfold JobDescription.to_dict at hm
    rcases List.mem_append.mp hm with hm | hm
    · rcases List.mem_append.mp hm with hm | hm
      · rcases List.mem_append.mp hm with hm | hm
        · rcases List.mem_append.mp hm with hm | hm
          · simp only [List.mem_cons, List.not_mem_nil, or_false, Prod.mk.injEq] at hm
            rcases hm with ⟨hk, hv⟩ | ⟨hk, hv⟩
            · subst hk; rw [hv, hmin, dictGetD_eq_of_rowLookup h1]
            · subst hk; rw [hv, hstatus, dictGetD_eq_of_rowLookup h1]
          · by_cases hd : j.description ≠ .vnone
            · rw [if_pos hd] at hm
              simp only [List.mem_cons, List.not_mem_nil, or_false, Prod.mk.injEq] at hm
              obtain ⟨hk, hv⟩ := hm
              subst hk
              rw [hv, hdesc, dictGet_eq_of_rowLookup h1]
            · rw [if_neg hd] at hm
              cases hm
        · by_cases hd : j.max_salary ≠ .vnone
          · rw [if_pos hd] at hm
            simp only [List.mem_cons, List.not_mem_nil, or_false, Prod.mk.injEq] at hm
            obtain ⟨hk, hv⟩ := hm
            subst hk
            rw [hv, hmax, dictGet_eq_of_rowLookup h1]
          · rw [if_neg hd] at hm
            cases hm
      · by_cases hd : j.recruiter_id ≠ .vnone
        · rw [if_pos hd] at hm
          simp only [List.mem_cons, List.not_mem_nil, or_false, Prod.mk.injEq] at hm
          obtain ⟨hk, hv⟩ := hm
          subst hk
          rw [hv, hrec, dictGet_eq_of_rowLookup h1]
        · rw [if_neg hd] at hm
          cases hm
    · cases hcv : j.client_id with
      | none => rw [hcv] at hm; cases hm
      | some u =>
        rw [hcv] at hm
        simp only [List.mem_cons, List.not_mem_nil, or_false, Prod.mk.injEq] at hm
        obtain ⟨hk, hv⟩ := hm
        subst hk
        rw [hcv] at hcid
        obtain ⟨s, hs, hn⟩ := parseOptUUID_ok_some hcid
        have hcan := canonicalFieldB_spec hcanon2 hs hn
        have hdg := dictGet_eq_of_rowLookup h1
        rw [hdg] at hs
        rw [hv, hcan, hs]

def c7BadRow : Row :=
  [("id", .vstr "AAAAAAAA-AAAA-AAAA-AAAA-AAAAAAAAAAAA"),
   ("name", .vstr "n"), ("last_name", .vstr "l"), ("linkedin", .vstr "k"),
   ("email", .vstr "e"), ("phone", .vstr "p"), ("city", .vstr "c"),
   ("english", .vstr "g")]

/-- Counterexample to claim C7 as stated: the codec accepts an
uppercase identifier spelling, but to_wire re-emits it canonically in
lowercase, so the id field is present in both the row and the output of
to_wire with different values. -/
theorem claim_C7_counterexample :
    (Applicant.from_dict c7BadRow).map (fun a => rowLookup a.to_dict "id") =
      .ok (some (.vstr "aaaaaaaa-aaaa-aaaa-aaaa-aaaaaaaaaaaa")) ∧
    rowLookup c7BadRow "id" = some (.vstr "AAAAAAAA-AAAA-AAAA-AAAA-AAAAAAAAAAAA") ∧
    Value.vstr "aaaaaaaa-aaaa-aaaa-aaaa-aaaaaaaaaaaa" ≠
      .vstr "AAAAAAAA-AAAA-AAAA-AAAA-AAAAAAAAAAAA" :=
  ⟨rfl, rfl, by decide⟩

def c7GoodRow : Row :=
  [("id", .vstr "abcdefab-1234-5678-9abc-def012345678"),
   ("name", .vstr "n"), ("last_name", .vstr "l"), ("linkedin", .vstr "k"),
   ("email", .vstr "e"), ("phone", .vstr "p"), ("city", .vstr "c"),
   ("english", .vstr "g")]

def c7GoodApp : Applicant :=
  { name := .vstr "n", last_name := .vstr "l", linkedin := .vstr "k",
    email := .vstr "e", phone := .vstr "p", city := .vstr "c",
    english := .vstr "g", id := some "abcdefab123456789abcdef012345678",
    created_at := none, deactive_at := none }

/-- Witness for the amended claim C7 on a canonically-spelled row. -/
theorem claim_C7_roundtrip_amended_witness :
    rowAgree c7GoodRow c7GoodApp.to_dict :=
  (claim_C7_roundtrip_amended c7GoodRow).1 c7GoodApp (by rfl) (by decide)

/- ----------------------------------------------------------------- -/
/- Claim C10                                                          -/
/- ----------------------------------------------------------------- -/

/-- Claim C10: with a non-empty description filter, clients and
recruiters whose description is absent/null are handled totally: the
residual predicate yields false without raising, and every entity in
the result set has a truthy description — so an entity with a missing
description is excluded rather than matched or failing. -/
theorem claim_C10_missing_description (t : Table) (d : Option String)
    (hd : optParamTruthy d = true) :
    (∀ dl (c : Client), c.description = .vnone → clientDescPred dl c = .ok false) ∧
    (∀ dl (r : Recruiter), r.description = .vnone → recruiterDescPred dl r = .ok false) ∧
    (∀ res, search_clients t d = .ok res → ∀ c ∈ res, c.description.truthy = true) ∧
    (∀ n res, search_recruiters t n d = .ok res → ∀ r ∈ res, r.description.truthy = true) := by
  refine ⟨?_, ?_, ?_, ?_⟩
  · intro dl c hc
    simp [clientDescPred, hc, Value.truthy]
  · intro dl r hr
    simp [recruiterDescPred, hr, Value.truthy]
  · intro res h c hc
    simp only [search_clients] at h
    split at h
    · cases h
    next l1 hl1 =>
      have hp := (filterIf_ok_mem h c hc).2 hd
      by_contra hnt
      rw [Bool.not_eq_true] at hnt
      simp [clientDescPred, hnt] at hp
  · intro n res h r hr
    simp only [search_recruiters] at h
    split at h
    · cases h
    next l1 hl1 =>
      split at h
      · cases h
      next l2 hl2 =>
        have hp := (filterIf_ok_mem h r hr).2 hd
        by_contra hnt
        rw [Bool.not_eq_true] at hnt
        simp [recruiterDescPred, hnt] at hp

def c10ClientTable : Table :=
  [[("id", .vstr "10101010-1010-1010-1010-101010101010")],
   [("description", .vstr "Globant - IT")]]

def c10Client : Client :=
  { description := .vstr "Globant - IT", id := none, created_at := none, deactive := none }

def c10RecTable : Table :=
  [[("name", .vstr "Ann")],
   [("name", .vstr "Ben"), ("description", .vstr "Tech hiring")]]

def c10Rec : Recruiter :=
  { name := .vstr "Ben", description := .vstr "Tech hiring", id := .rnone,
    created_at := none, deactive_at := none }

def c10NoDescClient : Client :=
  { description := .vnone, id := none, created_at := none, deactive := none }

def c10NoDescRec : Recruiter :=
  { name := .vstr "Ann", description := .vnone, id := .rnone,
    created_at := none, deactive_at := none }

/-- Witness for claim C10: tables holding one entity without a
description and one matching entity; the former is excluded without an
exception and the returned entities carry truthy descriptions. -/
theorem claim_C10_missing_description_witness :
    clientDescPred "globant" c10NoDescClient = .ok false ∧
    recruiterDescPred "tech" c10NoDescRec = .ok false ∧
    c10Client.description.truthy = true ∧
    c10Rec.description.truthy = true := by
  have h := claim_C10_missing_description c10ClientTable (some "globant") rfl
  have h2 := claim_C10_missing_description c10RecTable (some "tech") rfl
  refine ⟨h.1 "globant" c10NoDescClient rfl, h2.2.1 "tech" c10NoDescRec rfl, ?_, ?_⟩
  · exact h.2.2.1 [c10Client] (by rfl) c10Client (List.mem_cons_self _ _)
  · exact h2.2.2.2 none [c10Rec] (by rfl) c10Rec (List.mem_cons_self _ _)
